import Mathlib

/-!
Shallow embedding of the task-manager data-access layer
(`src/after-review/task_manager.py`).  Strings are modelled as `List Char`
(one entry per code point, so `List.length` matches Python `len`), machine
ids as `Nat`, and timestamps as `Nat` values passed explicitly to every
operation that the Python code stamps with `datetime.now().isoformat()`
(ISO-8601 strings compare lexicographically exactly as the underlying
instants compare, so a `Nat` clock is an order-faithful model).  The sqlite
table is modelled as a list of rows in rowid order together with the next
`AUTOINCREMENT` value, which sqlite never reuses after a delete.
-/

/-- Python `str.strip` whitespace set restricted to the ASCII characters it
removes: space, tab (9), newline (10), vertical tab (11), form feed (12)
and carriage return (13). -/
def isPySpace (c : Char) : Bool :=
  c == ' ' || (9 ≤ c.toNat && c.toNat ≤ 13)

/-- Python `str.strip()`: drop leading whitespace, then trailing whitespace. -/
def pyStrip (l : List Char) : List Char :=
  ((l.dropWhile isPySpace).reverse.dropWhile isPySpace).reverse

namespace TaskManager

/-- One row of the `tasks` table (`CREATE TABLE` in `_initialize_database`).
`updated_at` is NULL until the first successful update. -/
structure Task where
  id : Nat
  title : List Char
  description : List Char
  status : List Char
  created_at : Nat
  updated_at : Option Nat
deriving DecidableEq

/-- The sqlite database: rows in rowid (insertion) order plus the next
`AUTOINCREMENT` id, which starts at 1 and never decreases. -/
structure TMState where
  tasks : List Task
  nextId : Nat
deriving DecidableEq

/-- The freshly initialized database (`_initialize_database` on a new file). -/
def initialState : TMState := { tasks := [], nextId := 1 }

/-- `[status.value for status in TaskStatus]` from the `TaskStatus` enum. -/
def validStatuses : List (List Char) :=
  ["pending".data, "in_progress".data, "completed".data, "high".data, "urgent".data]

/-- Membership in the enumerated status set. -/
def validStatusB (status : List Char) : Bool :=
  validStatuses.contains status

/-- The Python truthiness-guarded check `description and len(description) > 1000`
from `_validate_task_data` (`None` and `""` are falsy, so skipped). -/
def descTooLong (description : Option (List Char)) : Bool :=
  match description with
  | none => false
  | some d => !d.isEmpty && decide (1000 < d.length)

/-- `TaskManager._validate_task_data`: sequential raising checks, modelled as
`Except` with the raised message. -/
def validate_task_data (title status : List Char) (description : Option (List Char)) :
    Except (List Char) Unit :=
  if title = [] ∨ pyStrip title = [] then
    .error "Title cannot be empty".data
  else if 200 < title.length then
    .error "Title too long (max 200 characters)".data
  else if descTooLong description then
    .error "Description too long (max 1000 characters)".data
  else if validStatusB status = false then
    .error "Invalid status. Must be one of: pending, in_progress, completed, high, urgent".data
  else
    .ok ()

/-- The exception hierarchy of the module (`DatabaseError` is unreachable in
this pure model of a healthy storage engine, but kept for fidelity). -/
inductive TaskManagerError where
  | validationError (msg : List Char)
  | databaseError (msg : List Char)
deriving DecidableEq

/-- Whether an `Except` result is a normal return rather than a raise. -/
def exceptOk {ε α : Type} : Except ε α → Bool
  | .ok _ => true
  | .error _ => false

/-- The `ORDER BY created_at DESC` comparison: `a` may come before `b` iff
`b.created_at ≤ a.created_at` (newest first). -/
def byNewest (a b : Task) : Prop := b.created_at ≤ a.created_at

instance : DecidableRel byNewest := fun _ _ => Nat.decLe _ _

instance : IsTotal Task byNewest := ⟨fun a b => Nat.le_total b.created_at a.created_at⟩

instance : IsTrans Task byNewest := ⟨fun _ _ _ hab hbc => Nat.le_trans hbc hab⟩

/-- `ORDER BY created_at DESC` over a row list (a stable sort, newest first). -/
def sortByCreatedDesc (l : List Task) : List Task :=
  l.insertionSort byNewest

/-- `TaskManager.add_task`: validate, then INSERT the trimmed fields with the
current timestamp; returns `cursor.lastrowid`.  The state component is the
database after the call (unchanged when validation raises before the write). -/
def add_task (st : TMState) (now : Nat) (title : List Char)
    (description : List Char := []) (status : List Char := "pending".data) :
    Except TaskManagerError Nat × TMState :=
  match validate_task_data title status (some description) with
  | .error m => (.error (.validationError m), st)
  | .ok () =>
    let t : Task :=
      { id := st.nextId, title := pyStrip title, description := pyStrip description,
        status := status, created_at := now, updated_at := none }
    (.ok st.nextId, { tasks := st.tasks ++ [t], nextId := st.nextId + 1 })

/-- `TaskManager.get_all_tasks`: `SELECT * FROM tasks ORDER BY created_at DESC`. -/
def get_all_tasks (st : TMState) : List Task :=
  sortByCreatedDesc st.tasks

/-- `TaskManager.get_task_by_id`: `SELECT * FROM tasks WHERE id = ?` then
`fetchone`, `None` when no row matches. -/
def get_task_by_id (st : TMState) (task_id : Nat) : Option Task :=
  st.tasks.find? (fun t => t.id == task_id)

/-- `TaskManager.update_task`: read the existing row, merge the supplied
fields over it (`x if x is not None else existing[...]`), re-validate the
merged result, then UPDATE with trimmed fields and `updated_at = now`. -/
def update_task (st : TMState) (now : Nat) (task_id : Nat)
    (title : Option (List Char) := none) (description : Option (List Char) := none)
    (status : Option (List Char) := none) :
    Except TaskManagerError Bool × TMState :=
  match get_task_by_id st task_id with
  | none => (.ok false, st)
  | some existing =>
    let new_title := title.getD existing.title
    let new_description := description.getD existing.description
    let new_status := status.getD existing.status
    match validate_task_data new_title new_status (some new_description) with
    | .error m => (.error (.validationError m), st)
    | .ok () =>
      (.ok true,
       { st with
         tasks := st.tasks.map (fun t =>
           if t.id == task_id then
             { t with title := pyStrip new_title, description := pyStrip new_description,
                      status := new_status, updated_at := some now }
           else t) })

/-- `TaskManager.delete_task`: `DELETE FROM tasks WHERE id = ?`; the Bool is
`cursor.rowcount > 0`.  `AUTOINCREMENT` keeps `nextId` untouched. -/
def delete_task (st : TMState) (task_id : Nat) : Bool × TMState :=
  (st.tasks.any (fun t => t.id == task_id),
   { st with tasks := st.tasks.filter (fun t => !(t.id == task_id)) })

/-- sqlite default ASCII case folding used by `LIKE`: upper-case ASCII letters
compare equal to their lower-case forms. -/
def lowerAscii (c : Char) : Char :=
  if 'A' ≤ c ∧ c ≤ 'Z' then Char.ofNat (c.toNat + 32) else c

/-- Character comparison of sqlite `LIKE` with its default `NOCASE`-for-ASCII
behaviour. -/
def charLikeEq (a b : Char) : Bool :=
  lowerAscii a == lowerAscii b

/-- sqlite `LIKE` pattern matching: `%` matches any (possibly empty) sequence,
`_` matches exactly one character, every other pattern character matches one
text character up to ASCII case. -/
def likeMatch (p s : List Char) : Bool :=
  match p, s with
  | [], s => s.isEmpty
  | c :: ps, s =>
    if c = '%' then
      likeMatch ps s ||
        (match s with
         | [] => false
         | _ :: t => likeMatch (c :: ps) t)
    else
      match s with
      | [] => false
      | d :: t => (if c = '_' then true else charLikeEq c d) && likeMatch ps t
termination_by (p.length, s.length)

/-- `TaskManager.search_tasks`: `WHERE title LIKE ?` with the bound pattern
`f"%{search_term}%"`, ordered newest first. -/
def search_tasks (st : TMState) (search_term : List Char) : List Task :=
  sortByCreatedDesc
    (st.tasks.filter (fun t => likeMatch ('%' :: (search_term ++ ['%'])) t.title))

/-- `TaskManager.filter_by_status`: reject a status outside the enumeration,
else `WHERE status = ?` ordered newest first. -/
def filter_by_status (st : TMState) (status : List Char) :
    Except TaskManagerError (List Task) :=
  if validStatusB status = false then
    .error (.validationError ("Invalid status: ".data ++ status))
  else
    .ok (sortByCreatedDesc (st.tasks.filter (fun t => t.status == status)))

/-- `TaskManager.get_priority_tasks`: `WHERE status IN ('high', 'urgent')`
ordered newest first. -/
def get_priority_tasks (st : TMState) : List Task :=
  sortByCreatedDesc
    (st.tasks.filter (fun t => t.status == "high".data || t.status == "urgent".data))

/-- Row well-formedness maintained by every write path: fields are stored
trimmed, the title is non-empty and within 200 characters, the description
within 1000, and the status inside the enumeration. -/
def TaskWF (t : Task) : Prop :=
  pyStrip t.title = t.title ∧ t.title ≠ [] ∧ t.title.length ≤ 200 ∧
  pyStrip t.description = t.description ∧ t.description.length ≤ 1000 ∧
  validStatusB t.status = true

instance (t : Task) : Decidable (TaskWF t) := by
  unfold TaskWF; infer_instance

/-- Database well-formedness: every row is well formed and predates the next
auto-increment value. -/
def StateWF (st : TMState) : Prop :=
  ∀ t ∈ st.tasks, TaskWF t ∧ t.id < st.nextId

instance (st : TMState) : Decidable (StateWF st) := by
  unfold StateWF; infer_instance

/-- States reachable from a fresh database through the public write
operations. -/
inductive Reachable : TMState → Prop where
  | init : Reachable initialState
  | add (st : TMState) (now : Nat) (title description status : List Char) :
      Reachable st → Reachable (add_task st now title description status).2
  | update (st : TMState) (now task_id : Nat)
      (title description status : Option (List Char)) :
      Reachable st → Reachable (update_task st now task_id title description status).2
  | delete (st : TMState) (task_id : Nat) :
      Reachable st → Reachable (delete_task st task_id).2

/-- Case-sensitive character-for-character match of `needle` against the
beginning of `hay`. -/
def matchesAt : List Char → List Char → Bool
  | [], _ => true
  | _ :: _, [] => false
  | a :: as, b :: bs => a == b && matchesAt as bs

/-- Modelled from the spec: the claim C9 notion "the title contains the term
as a substring" (plain, case-sensitive substring containment), stated
independently of the sqlite `LIKE` semantics the code delegates to. -/
def specSubstring (needle hay : List Char) : Bool :=
  matchesAt needle hay ||
    (match hay with
     | [] => false
     | _ :: t => specSubstring needle t)

/-- `matchesAt` up to the ASCII case folding sqlite `LIKE` applies. -/
def matchesAtCI : List Char → List Char → Bool
  | [], _ => true
  | _ :: _, [] => false
  | a :: as, b :: bs => charLikeEq a b && matchesAtCI as bs

/-- Substring containment up to ASCII case. -/
def substringCI (needle hay : List Char) : Bool :=
  matchesAtCI needle hay ||
    (match hay with
     | [] => false
     | _ :: t => substringCI needle t)

/-- Search terms free of the two `LIKE` metacharacters. -/
def noWildcards (term : List Char) : Prop :=
  ∀ c ∈ term, c ≠ '%' ∧ c ≠ '_'

instance (term : List Char) : Decidable (noWildcards term) := by
  unfold noWildcards
  infer_instance

end TaskManager

deriving instance DecidableEq for Except

section StripLemmas

variable {α : Type}

theorem dropWhile_dropWhile (p : α → Bool) (l : List α) :
    (l.dropWhile p).dropWhile p = l.dropWhile p := by
  induction l with
  | nil => rfl
  | cons a t ih =>
    by_cases h : p a = true
    · simp [List.dropWhile_cons, h, ih]
    · simp [List.dropWhile_cons, h]

theorem exists_append_dropWhile (p : α → Bool) (l : List α) :
    ∃ u, u ++ l.dropWhile p = l := by
  induction l with
  | nil => exact ⟨[], rfl⟩
  | cons a t ih =>
    by_cases h : p a = true
    · obtain ⟨u, hu⟩ := ih
      exact ⟨a :: u, by simp [List.dropWhile_cons, h, hu]⟩
    · exact ⟨[], by simp [List.dropWhile_cons, h]⟩

theorem head_dropWhile_false (p : α → Bool) (l : List α) (a : α) (t : List α)
    (h : l.dropWhile p = a :: t) : p a = false := by
  induction l generalizing a t with
  | nil => simp at h
  | cons b l ih =>
    by_cases hb : p b = true
    · rw [List.dropWhile_cons, if_pos hb] at h
      exact ih a t h
    · rw [List.dropWhile_cons, if_neg hb] at h
      obtain ⟨rfl, rfl⟩ := List.cons.injEq .. |>.mp h |>.imp id id
      simpa using hb

theorem length_dropWhile_le (p : α → Bool) (l : List α) :
    (l.dropWhile p).length ≤ l.length := by
  obtain ⟨u, hu⟩ := exists_append_dropWhile p l
  calc (l.dropWhile p).length ≤ u.length + (l.dropWhile p).length := Nat.le_add_left _ _
  _ = l.length := by rw [← List.length_append, hu]

end StripLemmas

theorem pyStrip_nil : pyStrip [] = [] := rfl

theorem pyStrip_length_le (l : List Char) : (pyStrip l).length ≤ l.length := by
  unfold pyStrip
  calc ((l.dropWhile isPySpace).reverse.dropWhile isPySpace).reverse.length
      = ((l.dropWhile isPySpace).reverse.dropWhile isPySpace).length := List.length_reverse _
    _ ≤ (l.dropWhile isPySpace).reverse.length := length_dropWhile_le _ _
    _ = (l.dropWhile isPySpace).length := List.length_reverse _
    _ ≤ l.length := length_dropWhile_le _ _

theorem reverse_pyStrip (l : List Char) :
    (pyStrip l).reverse = (l.dropWhile isPySpace).reverse.dropWhile isPySpace := by
  unfold pyStrip
  rw [List.reverse_reverse]

theorem dropWhile_pyStrip (l : List Char) :
    (pyStrip l).dropWhile isPySpace = pyStrip l := by
  cases hB : pyStrip l with
  | nil => rfl
  | cons hb tb =>
    obtain ⟨u, hu⟩ := exists_append_dropWhile isPySpace (l.dropWhile isPySpace).reverse
    have hA : l.dropWhile isPySpace = pyStrip l ++ u.reverse := by
      have h2 := congrArg List.reverse hu
      rw [List.reverse_append, List.reverse_reverse, ← reverse_pyStrip l,
        List.reverse_reverse] at h2
      exact h2.symm
    rw [hB] at hA
    have hhd : isPySpace hb = false :=
      head_dropWhile_false isPySpace l hb (tb ++ u.reverse) (by simpa using hA)
    rw [List.dropWhile_cons, if_neg (by simp [hhd])]

theorem pyStrip_idem (l : List Char) : pyStrip (pyStrip l) = pyStrip l := by
  show ((((pyStrip l).dropWhile isPySpace).reverse).dropWhile isPySpace).reverse = pyStrip l
  rw [dropWhile_pyStrip l, reverse_pyStrip l, dropWhile_dropWhile, ← reverse_pyStrip l,
    List.reverse_reverse]

namespace TaskManager

theorem validate_ok_iff (title status : List Char) (description : Option (List Char)) :
    validate_task_data title status description = .ok () ↔
      (pyStrip title ≠ [] ∧ title.length ≤ 200 ∧
        (∀ d, description = some d → d.length ≤ 1000) ∧ validStatusB status = true) := by
  unfold validate_task_data
  split_ifs with h1 h2 h3 h4
  · refine iff_of_false (by simp) ?_
    intro hc
    rcases h1 with h1 | h1
    · exact hc.1 (by rw [h1, pyStrip_nil])
    · exact hc.1 h1
  · refine iff_of_false (by simp) ?_
    intro hc
    exact absurd hc.2.1 (by omega)
  · refine iff_of_false (by simp) ?_
    intro hc
    cases hd : description with
    | none => rw [hd] at h3; simp [descTooLong] at h3
    | some d =>
      rw [hd] at h3
      simp only [descTooLong, Bool.and_eq_true, decide_eq_true_eq] at h3
      exact absurd (hc.2.2.1 d hd) (by omega)
  · refine iff_of_false (by simp) ?_
    intro hc
    rw [hc.2.2.2] at h4
    cases h4
  · push_neg at h1
    refine iff_of_true rfl ⟨h1.2, by omega, ?_, ?_⟩
    · intro d hd
      subst hd
      by_cases hlen : 1000 < d.length
      · exfalso
        apply h3
        have hne : d.isEmpty = false := by
          cases d with
          | nil => simp at hlen
          | cons _ _ => rfl
        simp [descTooLong, hne, hlen]
      · omega
    · cases hv : validStatusB status with
      | true => rfl
      | false => exact absurd hv h4

theorem validate_not_ok_iff (title status : List Char) (description : Option (List Char)) :
    validate_task_data title status description ≠ .ok () ↔
      (pyStrip title = [] ∨ 200 < title.length ∨
        (∃ d, description = some d ∧ 1000 < d.length) ∨ validStatusB status = false) := by
  rw [Ne, validate_ok_iff]
  constructor
  · intro h
    by_cases h1 : pyStrip title = []
    · exact Or.inl h1
    by_cases h2 : 200 < title.length
    · exact Or.inr (Or.inl h2)
    by_cases h4 : validStatusB status = true
    · refine Or.inr (Or.inr (Or.inl ?_))
      by_contra hd
      push_neg at hd
      exact h ⟨h1, by omega, fun d hdd => by
        by_contra hlen
        exact absurd hlen (by have := hd d hdd; omega), h4⟩
    · exact Or.inr (Or.inr (Or.inr (by cases hv : validStatusB status with
        | true => exact absurd hv h4
        | false => rfl)))
  · rintro (h | h | ⟨d, rfl, hd⟩ | h) hc
    · exact hc.1 h
    · exact absurd hc.2.1 (by omega)
    · exact absurd (hc.2.2.1 d rfl) (by omega)
    · rw [hc.2.2.2] at h; cases h

theorem add_task_error {st : TMState} {now : Nat} {title description status m : List Char}
    (hv : validate_task_data title status (some description) = .error m) :
    add_task st now title description status = (.error (.validationError m), st) := by
  simp only [add_task, hv]

theorem add_task_ok {st : TMState} {now : Nat} {title description status : List Char}
    (hv : validate_task_data title status (some description) = .ok ()) :
    add_task st now title description status =
      (.ok st.nextId,
       { tasks := st.tasks ++
           [⟨st.nextId, pyStrip title, pyStrip description, status, now, none⟩],
         nextId := st.nextId + 1 }) := by
  simp only [add_task, hv]

theorem update_task_none {st : TMState} {now task_id : Nat}
    {title description status : Option (List Char)}
    (hg : get_task_by_id st task_id = none) :
    update_task st now task_id title description status = (.ok false, st) := by
  simp only [update_task, hg]

theorem update_task_error {st : TMState} {now task_id : Nat}
    {title description status : Option (List Char)} {existing : Task} {m : List Char}
    (hg : get_task_by_id st task_id = some existing)
    (hv : validate_task_data (title.getD existing.title) (status.getD existing.status)
        (some (description.getD existing.description)) = .error m) :
    update_task st now task_id title description status =
      (.error (.validationError m), st) := by
  simp only [update_task, hg, hv]

theorem update_task_ok {st : TMState} {now task_id : Nat}
    {title description status : Option (List Char)} {existing : Task}
    (hg : get_task_by_id st task_id = some existing)
    (hv : validate_task_data (title.getD existing.title) (status.getD existing.status)
        (some (description.getD existing.description)) = .ok ()) :
    update_task st now task_id title description status =
      (.ok true,
       { st with
         tasks := st.tasks.map (fun t =>
           if t.id == task_id then
             { t with title := pyStrip (title.getD existing.title),
                      description := pyStrip (description.getD existing.description),
                      status := status.getD existing.status, updated_at := some now }
           else t) }) := by
  simp only [update_task, hg, hv]

/-- `find?` over an id-preserving, predicate-preserving map. -/
theorem find?_map_of_pred {α : Type} (f : α → α) (p : α → Bool)
    (hp : ∀ x, p (f x) = p x) (l : List α) :
    (l.map f).find? p = (l.find? p).map f := by
  induction l with
  | nil => rfl
  | cons a t ih =>
    cases hpa : p a with
    | true => simp [List.find?, hp a, hpa]
    | false => simp [List.find?, hp a, hpa, ih]

theorem mem_sortByCreatedDesc {t : Task} {l : List Task} :
    t ∈ sortByCreatedDesc l ↔ t ∈ l :=
  List.mem_insertionSort byNewest

theorem sorted_sortByCreatedDesc (l : List Task) :
    List.Sorted byNewest (sortByCreatedDesc l) :=
  List.sorted_insertionSort byNewest l

/-- A freshly inserted row is well formed whenever validation accepted its
raw fields. -/
theorem taskWF_insert (title description status : List Char) (id now : Nat)
    (h : validate_task_data title status (some description) = .ok ()) :
    TaskWF ⟨id, pyStrip title, pyStrip description, status, now, none⟩ := by
  rw [validate_ok_iff] at h
  refine ⟨pyStrip_idem title, h.1, ?_, pyStrip_idem description, ?_, h.2.2.2⟩
  · exact le_trans (pyStrip_length_le title) h.2.1
  · exact le_trans (pyStrip_length_le description) (h.2.2.1 description rfl)

/-- A well-formed row re-passes validation unchanged (the `update` path with
no fields supplied). -/
theorem validate_of_taskWF {t : Task} (h : TaskWF t) :
    validate_task_data t.title t.status (some t.description) = .ok () := by
  rw [validate_ok_iff]
  obtain ⟨hnorm, hne, hlen, _, hdlen, hstat⟩ := h
  refine ⟨by rw [hnorm]; exact hne, hlen, ?_, hstat⟩
  intro d hd
  cases hd
  exact hdlen

theorem stateWF_init : StateWF initialState := by
  intro t ht
  simp [initialState] at ht

theorem stateWF_add (st : TMState) (now : Nat) (title description status : List Char)
    (h : StateWF st) : StateWF (add_task st now title description status).2 := by
  cases hv : validate_task_data title status (some description) with
  | error m => rw [add_task_error hv]; exact h
  | ok u =>
    cases u
    rw [add_task_ok hv]
    intro t ht
    simp only [List.mem_append, List.mem_singleton] at ht
    rcases ht with ht | rfl
    · exact ⟨(h t ht).1, Nat.lt_succ_of_lt (h t ht).2⟩
    · exact ⟨taskWF_insert title description status st.nextId now hv, Nat.lt_succ_self _⟩

theorem stateWF_update (st : TMState) (now task_id : Nat)
    (title description status : Option (List Char))
    (h : StateWF st) : StateWF (update_task st now task_id title description status).2 := by
  cases hg : get_task_by_id st task_id with
  | none => rw [update_task_none hg]; exact h
  | some existing =>
    cases hv : validate_task_data (title.getD existing.title) (status.getD existing.status)
        (some (description.getD existing.description)) with
    | error m => rw [update_task_error hg hv]; exact h
    | ok u =>
      cases u
      rw [update_task_ok hg hv]
      intro t ht
      simp only [List.mem_map] at ht
      obtain ⟨x, hx, hxt⟩ := ht
      by_cases hid : x.id == task_id
      · rw [if_pos hid] at hxt
        subst hxt
        rw [validate_ok_iff] at hv
        refine ⟨⟨pyStrip_idem _, hv.1, ?_, pyStrip_idem _, ?_, hv.2.2.2⟩, (h x hx).2⟩
        · exact le_trans (pyStrip_length_le _) hv.2.1
        · exact le_trans (pyStrip_length_le _) (hv.2.2.1 _ rfl)
      · rw [if_neg hid] at hxt
        subst hxt
        exact h x hx

theorem stateWF_delete (st : TMState) (task_id : Nat)
    (h : StateWF st) : StateWF (delete_task st task_id).2 := by
  intro t ht
  exact h t (List.mem_of_mem_filter ht)

theorem reachable_wf {st : TMState} (h : Reachable st) : StateWF st := by
  induction h with
  | init => exact stateWF_init
  | add st now title description status _ ih => exact stateWF_add st now title description status ih
  | update st now task_id title description status _ ih =>
    exact stateWF_update st now task_id title description status ih
  | delete st task_id _ ih => exact stateWF_delete st task_id ih

theorem likeMatch_nil (s : List Char) : likeMatch [] s = s.isEmpty := by
  rw [likeMatch]

theorem likeMatch_percent_nil (ps : List Char) :
    likeMatch ('%' :: ps) [] = likeMatch ps [] := by
  rw [likeMatch, if_pos rfl]
  exact Bool.or_false _

theorem likeMatch_percent_cons (ps : List Char) (d : Char) (t : List Char) :
    likeMatch ('%' :: ps) (d :: t) = (likeMatch ps (d :: t) || likeMatch ('%' :: ps) t) := by
  rw [likeMatch, if_pos rfl]

theorem likeMatch_other_nil (c : Char) (ps : List Char) (h1 : c ≠ '%') :
    likeMatch (c :: ps) [] = false := by
  rw [likeMatch, if_neg h1]

theorem likeMatch_other_cons (c d : Char) (ps t : List Char) (h1 : c ≠ '%') (h2 : c ≠ '_') :
    likeMatch (c :: ps) (d :: t) = (charLikeEq c d && likeMatch ps t) := by
  rw [likeMatch, if_neg h1]
  rw [if_neg h2]

theorem likeMatch_single_percent (s : List Char) : likeMatch ['%'] s = true := by
  induction s with
  | nil => rw [likeMatch_percent_nil, likeMatch_nil]; rfl
  | cons d t ih => rw [likeMatch_percent_cons, likeMatch_nil, ih]; simp

theorem likeMatch_term_percent (term : List Char) (hterm : noWildcards term) :
    ∀ s, likeMatch (term ++ ['%']) s = matchesAtCI term s := by
  induction term with
  | nil => intro s; rw [List.nil_append, likeMatch_single_percent]; rfl
  | cons c cs ih =>
    intro s
    have hc := hterm c (List.mem_cons_self c cs)
    have hcs : noWildcards cs := fun x hx => hterm x (List.mem_cons_of_mem c hx)
    cases s with
    | nil => rw [List.cons_append, likeMatch_other_nil _ _ hc.1]; rfl
    | cons d t =>
      rw [List.cons_append, likeMatch_other_cons _ _ _ _ hc.1 hc.2, ih hcs t]
      rfl

/-- On wildcard-free terms, the `LIKE '%term%'` pattern the code builds is
exactly substring containment up to ASCII case. -/
theorem substringCI_nil (needle : List Char) :
    substringCI needle [] = matchesAtCI needle [] := by
  rw [substringCI]
  exact Bool.or_false _

theorem substringCI_cons (needle : List Char) (d : Char) (t : List Char) :
    substringCI needle (d :: t) = (matchesAtCI needle (d :: t) || substringCI needle t) := by
  rw [substringCI]

theorem likeMatch_full (term : List Char) (hterm : noWildcards term) :
    ∀ s, likeMatch ('%' :: (term ++ ['%'])) s = substringCI term s := by
  intro s
  induction s with
  | nil =>
    rw [likeMatch_percent_nil, likeMatch_term_percent term hterm, substringCI_nil]
  | cons d t ih =>
    rw [likeMatch_percent_cons, likeMatch_term_percent term hterm, ih, substringCI_cons]

/-- After a validated insert, looking up the fresh id finds exactly the new
trimmed row (existing ids are all below `nextId`). -/
theorem add_then_get (st : TMState) (now : Nat) (title description status : List Char)
    (hwf : StateWF st)
    (hv : validate_task_data title status (some description) = .ok ()) :
    (add_task st now title description status).1 = .ok st.nextId ∧
    get_task_by_id (add_task st now title description status).2 st.nextId =
      some ⟨st.nextId, pyStrip title, pyStrip description, status, now, none⟩ := by
  rw [add_task_ok hv]
  refine ⟨rfl, ?_⟩
  show (st.tasks ++
      [(⟨st.nextId, pyStrip title, pyStrip description, status, now, none⟩ : Task)]).find?
        (fun t => t.id == st.nextId) =
    some ⟨st.nextId, pyStrip title, pyStrip description, status, now, none⟩
  rw [List.find?_append]
  have hnone : st.tasks.find? (fun t => t.id == st.nextId) = none := by
    rw [List.find?_eq_none]
    intro a ha
    simp only [beq_iff_eq]
    exact Nat.ne_of_lt (hwf a ha).2
  rw [hnone]
  simp [List.find?]

/-- Looking up `task_id` after the UPDATE write-back returns the found row
transformed, provided the transformation keeps ids. -/
theorem get_after_update_map (st : TMState) (task_id : Nat) (t : Task) (g : Task → Task)
    (hg : get_task_by_id st task_id = some t)
    (hid : ∀ x, (g x).id = x.id) :
    get_task_by_id
        { st with tasks := st.tasks.map (fun x => if x.id == task_id then g x else x) }
        task_id = some (g t) := by
  unfold get_task_by_id
  dsimp only
  have hp : ∀ x : Task,
      ((if x.id == task_id then g x else x).id == task_id) = (x.id == task_id) := by
    intro x
    by_cases h : (x.id == task_id) = true
    · simp [h, hid x]
    · simp [h]
  rw [find?_map_of_pred (fun x => if x.id == task_id then g x else x)
    (fun x => x.id == task_id) hp st.tasks]
  have hg2 : st.tasks.find? (fun x => x.id == task_id) = some t := hg
  rw [hg2]
  have hpt := List.find?_some hg
  simp only [Option.map_some', if_pos hpt]

/-- C1: for every valid input, `add_task` then `get_task_by_id` on the
returned id yields a task whose title and description are the trimmed
inputs, whose status is the given status and whose `updated_at` is absent;
on an empty store, add("Review PR", "", "pending") returns id 1 and
getById(1) returns exactly those field values. -/
theorem claim_C1_add_then_get :
    (∀ (st : TMState) (now : Nat) (title description status : List Char),
      StateWF st → validate_task_data title status (some description) = .ok () →
      (add_task st now title description status).1 = .ok st.nextId ∧
      get_task_by_id (add_task st now title description status).2 st.nextId =
        some ⟨st.nextId, pyStrip title, pyStrip description, status, now, none⟩) ∧
    (add_task initialState 0 "Review PR".data [] "pending".data).1 = .ok 1 ∧
    get_task_by_id (add_task initialState 0 "Review PR".data [] "pending".data).2 1 =
      some ⟨1, "Review PR".data, [], "pending".data, 0, none⟩ :=
  ⟨fun st now title description status hwf hv =>
    add_then_get st now title description status hwf hv, by decide, by decide⟩

/-- Witness for C1 at a concrete input with surrounding whitespace. -/
theorem claim_C1_witness :
    (add_task initialState 5 "  Fix bug  ".data " docs ".data "urgent".data).1 = .ok 1 ∧
    get_task_by_id (add_task initialState 5 "  Fix bug  ".data " docs ".data "urgent".data).2 1 =
      some ⟨1, "Fix bug".data, "docs".data, "urgent".data, 5, none⟩ :=
  claim_C1_add_then_get.1 initialState 5 "  Fix bug  ".data " docs ".data "urgent".data
    (by decide) (by decide)

/-- C3: the quote-laden title is accepted by `add_task`, is returned by
`get_task_by_id` as the same literal text, and `get_all_tasks` afterwards
still returns every previously stored task: bound parameters cannot corrupt
the store structurally. -/
theorem claim_C3_injection_safe :
    ∀ (st : TMState) (now : Nat), StateWF st →
      (add_task st now "O'Brien; DROP TABLE tasks;".data [] "pending".data).1 = .ok st.nextId ∧
      get_task_by_id (add_task st now "O'Brien; DROP TABLE tasks;".data [] "pending".data).2
          st.nextId =
        some ⟨st.nextId, "O'Brien; DROP TABLE tasks;".data, [], "pending".data, now, none⟩ ∧
      ∀ t ∈ st.tasks,
        t ∈ get_all_tasks
            (add_task st now "O'Brien; DROP TABLE tasks;".data [] "pending".data).2 := by
  intro st now hwf
  have hv : validate_task_data "O'Brien; DROP TABLE tasks;".data "pending".data (some []) =
      .ok () := by decide
  obtain ⟨h1, h2⟩ := add_then_get st now "O'Brien; DROP TABLE tasks;".data [] "pending".data hwf hv
  have hs : pyStrip "O'Brien; DROP TABLE tasks;".data = "O'Brien; DROP TABLE tasks;".data := by
    decide
  rw [hs, pyStrip_nil] at h2
  refine ⟨h1, h2, ?_⟩
  intro t ht
  rw [add_task_ok hv]
  show t ∈ get_all_tasks _
  unfold get_all_tasks
  rw [mem_sortByCreatedDesc]
  exact List.mem_append_left _ ht

/-- Witness for C3: a store already holding one task. -/
theorem claim_C3_witness :
    (add_task (add_task initialState 0 "Review PR".data [] "pending".data).2 1
        "O'Brien; DROP TABLE tasks;".data [] "pending".data).1 = .ok 2 ∧
    get_task_by_id (add_task (add_task initialState 0 "Review PR".data [] "pending".data).2 1
        "O'Brien; DROP TABLE tasks;".data [] "pending".data).2 2 =
      some ⟨2, "O'Brien; DROP TABLE tasks;".data, [], "pending".data, 1, none⟩ ∧
    (⟨1, "Review PR".data, [], "pending".data, 0, none⟩ : Task) ∈
      get_all_tasks (add_task (add_task initialState 0 "Review PR".data [] "pending".data).2 1
        "O'Brien; DROP TABLE tasks;".data [] "pending".data).2 := by
  obtain ⟨h1, h2, h3⟩ := claim_C3_injection_safe
    (add_task initialState 0 "Review PR".data [] "pending".data).2 1 (by decide)
  exact ⟨h1, h2, h3 ⟨1, "Review PR".data, [], "pending".data, 0, none⟩ (by decide)⟩

/-- C4: in every state reachable from the empty store through the public
write operations, every stored status belongs to the enumerated set, and so
do the statuses returned by `get_priority_tasks` and `filter_by_status`. -/
theorem claim_C4_status_invariant :
    ∀ st : TMState, Reachable st →
      (∀ t ∈ st.tasks, validStatusB t.status = true) ∧
      (∀ t ∈ get_priority_tasks st, validStatusB t.status = true) ∧
      (∀ (s : List Char) (ts : List Task), filter_by_status st s = .ok ts →
        ∀ t ∈ ts, validStatusB t.status = true) := by
  intro st hr
  have hwf := reachable_wf hr
  have hmem : ∀ t ∈ st.tasks, validStatusB t.status = true :=
    fun t ht => (hwf t ht).1.2.2.2.2.2
  refine ⟨hmem, ?_, ?_⟩
  · intro t ht
    unfold get_priority_tasks at ht
    rw [mem_sortByCreatedDesc] at ht
    exact hmem t (List.mem_of_mem_filter ht)
  · intro s ts hts t ht
    unfold filter_by_status at hts
    split_ifs at hts with hvs
    · injection hts with h
      subst h
      rw [mem_sortByCreatedDesc] at ht
      exact hmem t (List.mem_of_mem_filter ht)

/-- Witness for C4 on a store reached by one insert. -/
theorem claim_C4_witness :
    validStatusB (Task.status ⟨1, "Review PR".data, [], "pending".data, 0, none⟩) = true :=
  (claim_C4_status_invariant (add_task initialState 0 "Review PR".data [] "pending".data).2
      (Reachable.add initialState 0 "Review PR".data [] "pending".data Reachable.init)).1
    ⟨1, "Review PR".data, [], "pending".data, 0, none⟩ (by decide)

/-- C5: on an id with no stored task, `get_task_by_id` returns `none`,
`update_task` returns false whatever fields are supplied (the absence check
runs before any merge or validation, so even invalid supplied fields do not
raise) and `delete_task` returns false, all as normal values; a second
delete of the same id always returns false. -/
theorem claim_C5_absence :
    ∀ (st : TMState) (now task_id : Nat),
      ((∀ t ∈ st.tasks, t.id ≠ task_id) →
        get_task_by_id st task_id = none ∧
        (∀ (title description status : Option (List Char)),
          update_task st now task_id title description status = (.ok false, st)) ∧
        delete_task st task_id = (false, st)) ∧
      (delete_task (delete_task st task_id).2 task_id).1 = false := by
  intro st now task_id
  constructor
  · intro habs
    have hg : get_task_by_id st task_id = none := by
      unfold get_task_by_id
      rw [List.find?_eq_none]
      intro a ha
      simp [habs a ha]
    refine ⟨hg, fun title description status => update_task_none hg, ?_⟩
    unfold delete_task
    have hany : st.tasks.any (fun t => t.id == task_id) = false := by
      rw [List.any_eq_false]
      intro a ha
      simp [habs a ha]
    have hfil : st.tasks.filter (fun t => !(t.id == task_id)) = st.tasks := by
      rw [List.filter_eq_self]
      intro a ha
      simp [habs a ha]
    rw [hany, hfil]
  · show ((st.tasks.filter (fun t => !(t.id == task_id))).any (fun t => t.id == task_id)) = false
    rw [List.any_eq_false]
    intro x hx
    have h2 := List.of_mem_filter hx
    simp at h2 ⊢
    exact h2

/-- Witness for C5 on the empty store and id 7, exercising the update
conjunct at a supplied (and invalid) empty-string title. -/
theorem claim_C5_witness :
    (get_task_by_id initialState 7 = none ∧
     update_task initialState 3 7 (some []) none none = (.ok false, initialState) ∧
     delete_task initialState 7 = (false, initialState)) ∧
    (delete_task (delete_task initialState 7).2 7).1 = false :=
  ⟨⟨((claim_C5_absence initialState 3 7).1 (by decide)).1,
    ((claim_C5_absence initialState 3 7).1 (by decide)).2.1 (some []) none none,
    ((claim_C5_absence initialState 3 7).1 (by decide)).2.2⟩,
   (claim_C5_absence initialState 3 7).2⟩

/-- C6: whenever `add_task` or `update_task` raises a validation error, the
returned store equals the store before the call — validation runs before
any write. -/
theorem claim_C6_no_partial_state :
    ∀ (st : TMState) (now : Nat),
      (∀ (title description status : List Char),
        exceptOk (add_task st now title description status).1 = false →
        (add_task st now title description status).2 = st) ∧
      (∀ (task_id : Nat) (title description status : Option (List Char)),
        exceptOk (update_task st now task_id title description status).1 = false →
        (update_task st now task_id title description status).2 = st) := by
  intro st now
  constructor
  · intro title description status h
    cases hv : validate_task_data title status (some description) with
    | error m => rw [add_task_error hv]
    | ok u =>
      cases u
      rw [add_task_ok hv] at h
      simp [exceptOk] at h
  · intro task_id title description status h
    cases hg : get_task_by_id st task_id with
    | none => rw [update_task_none hg]
    | some ex =>
      cases hv : validate_task_data (title.getD ex.title) (status.getD ex.status)
          (some (description.getD ex.description)) with
      | error m => rw [update_task_error hg hv]
      | ok u =>
        cases u
        rw [update_task_ok hg hv] at h
        simp [exceptOk] at h

/-- C7: updating a stored task with no fields supplied returns true, keeps
id, title, description, status and created_at unchanged, and stamps
`updated_at` with the current time. -/
theorem claim_C7_empty_update :
    ∀ (st : TMState) (now task_id : Nat) (t : Task),
      StateWF st → get_task_by_id st task_id = some t →
      (update_task st now task_id none none none).1 = .ok true ∧
      get_task_by_id (update_task st now task_id none none none).2 task_id =
        some ⟨t.id, t.title, t.description, t.status, t.created_at, some now⟩ := by
  intro st now task_id t hwf hg
  have htwf : TaskWF t := (hwf t (List.mem_of_find?_eq_some hg)).1
  have hv : validate_task_data ((none : Option (List Char)).getD t.title)
      ((none : Option (List Char)).getD t.status)
      (some ((none : Option (List Char)).getD t.description)) = .ok () := by
    simpa using validate_of_taskWF htwf
  rw [update_task_ok hg hv]
  refine ⟨rfl, ?_⟩
  rw [get_after_update_map st task_id t
    (fun x => { x with title := pyStrip ((none : Option (List Char)).getD t.title),
                       description := pyStrip ((none : Option (List Char)).getD t.description),
                       status := (none : Option (List Char)).getD t.status,
                       updated_at := some now }) hg (fun x => rfl)]
  simp only [Option.getD_none]
  rw [htwf.1, htwf.2.2.2.1]

/-- Witness for C7 on a one-task store. -/
theorem claim_C7_witness :
    (update_task (add_task initialState 0 "Review PR".data [] "pending".data).2 9 1
        none none none).1 = .ok true ∧
    get_task_by_id (update_task (add_task initialState 0 "Review PR".data [] "pending".data).2
        9 1 none none none).2 1 =
      some ⟨1, "Review PR".data, [], "pending".data, 0, some 9⟩ :=
  claim_C7_empty_update (add_task initialState 0 "Review PR".data [] "pending".data).2 9 1
    ⟨1, "Review PR".data, [], "pending".data, 0, none⟩ (by decide) (by decide)

/-- C10: `update_task` treats an empty string as a supplied value: supplying
description="" overwrites the stored description with "", while supplying
title="" merges the empty title and fails validation instead of keeping the
prior title. -/
theorem claim_C10_empty_string_fields :
    ∀ (st : TMState) (now task_id : Nat) (t : Task),
      StateWF st → get_task_by_id st task_id = some t →
      ((update_task st now task_id none (some []) none).1 = .ok true ∧
       get_task_by_id (update_task st now task_id none (some []) none).2 task_id =
         some ⟨t.id, t.title, [], t.status, t.created_at, some now⟩) ∧
      update_task st now task_id (some []) none none =
        (.error (.validationError "Title cannot be empty".data), st) := by
  intro st now task_id t hwf hg
  have htwf : TaskWF t := (hwf t (List.mem_of_find?_eq_some hg)).1
  constructor
  · have hv : validate_task_data ((none : Option (List Char)).getD t.title)
        ((none : Option (List Char)).getD t.status)
        (some (((some []) : Option (List Char)).getD t.description)) = .ok () := by
      simp only [Option.getD_none, Option.getD_some]
      rw [validate_ok_iff]
      obtain ⟨hnorm, hne, hlen, _, _, hstat⟩ := htwf
      refine ⟨by rw [hnorm]; exact hne, hlen, ?_, hstat⟩
      intro d hd
      injection hd with h2
      subst h2
      simp
    rw [update_task_ok hg hv]
    refine ⟨rfl, ?_⟩
    rw [get_after_update_map st task_id t
      (fun x => { x with title := pyStrip ((none : Option (List Char)).getD t.title),
                         description :=
                           pyStrip (((some []) : Option (List Char)).getD t.description),
                         status := (none : Option (List Char)).getD t.status,
                         updated_at := some now }) hg (fun x => rfl)]
    simp only [Option.getD_none, Option.getD_some]
    rw [htwf.1, pyStrip_nil]
  · have hv : validate_task_data (((some []) : Option (List Char)).getD t.title)
        ((none : Option (List Char)).getD t.status)
        (some ((none : Option (List Char)).getD t.description)) =
        .error "Title cannot be empty".data := by
      simp only [Option.getD_none, Option.getD_some]
      unfold validate_task_data
      rw [if_pos (Or.inl rfl)]
    exact update_task_error hg hv

/-- Witness for C10 on a one-task store. -/
theorem claim_C10_witness :
    ((update_task (add_task initialState 0 "Review PR".data "docs".data "pending".data).2 4 1
        none (some []) none).1 = .ok true ∧
     get_task_by_id (update_task
         (add_task initialState 0 "Review PR".data "docs".data "pending".data).2 4 1
         none (some []) none).2 1 =
       some ⟨1, "Review PR".data, [], "pending".data, 0, some 4⟩) ∧
    update_task (add_task initialState 0 "Review PR".data "docs".data "pending".data).2 4 1
        (some []) none none =
      (.error (.validationError "Title cannot be empty".data),
       (add_task initialState 0 "Review PR".data "docs".data "pending".data).2) :=
  claim_C10_empty_string_fields
    (add_task initialState 0 "Review PR".data "docs".data "pending".data).2 4 1
    ⟨1, "Review PR".data, "docs".data, "pending".data, 0, none⟩ (by decide) (by decide)

/-- C8: `get_priority_tasks` returns exactly the stored tasks whose status
is high or urgent, ordered by created_at descending; the add("X"),
add("Y", urgent) scenario returns exactly the "Y" task. -/
theorem claim_C8_priority :
    (∀ (st : TMState) (t : Task),
      (t ∈ get_priority_tasks st ↔
        t ∈ st.tasks ∧ (t.status = "high".data ∨ t.status = "urgent".data)) ∧
      List.Sorted byNewest (get_priority_tasks st)) ∧
    get_priority_tasks
        (add_task (add_task initialState 0 "X".data [] "pending".data).2 1
          "Y".data [] "urgent".data).2 =
      [⟨2, "Y".data, [], "urgent".data, 1, none⟩] := by
  constructor
  · intro st t
    constructor
    · unfold get_priority_tasks
      rw [mem_sortByCreatedDesc, List.mem_filter]
      simp
    · exact sorted_sortByCreatedDesc _
  · decide

set_option maxRecDepth 20000 in
/-- C2 counterexample: a title of exactly 200 characters, all spaces, fails
validation (raised as "Title cannot be empty"), so "a title of exactly 200
characters always passes validation" is false as stated. -/
theorem claim_C2_counterexample :
    (List.replicate 200 ' ').length = 200 ∧
    validate_task_data (List.replicate 200 ' ') "pending".data (some []) =
      .error "Title cannot be empty".data ∧
    exceptOk (add_task initialState 0 (List.replicate 200 ' ') [] "pending".data).1 = false := by
  refine ⟨by decide, by decide, by decide⟩

/-- C2 amended: `add_task` fails with a validation error iff the title trims
to empty, the raw title exceeds 200 characters, the description exceeds
1000, or the status is outside the enumeration; a title longer than 200
always fails, and a title of exactly 200 characters passes whenever it is
not whitespace-only and description and status are valid. -/
theorem claim_C2_amended_validation :
    ∀ (title status description : List Char) (st : TMState) (now : Nat),
      (exceptOk (add_task st now title description status).1 = false ↔
        (pyStrip title = [] ∨ 200 < title.length ∨ 1000 < description.length ∨
          validStatusB status = false)) ∧
      (200 < title.length → exceptOk (add_task st now title description status).1 = false) ∧
      (title.length = 200 → pyStrip title ≠ [] → description.length ≤ 1000 →
        validStatusB status = true →
        exceptOk (add_task st now title description status).1 = true) := by
  intro title status description st now
  have hbridge : exceptOk (add_task st now title description status).1 = false ↔
      validate_task_data title status (some description) ≠ .ok () := by
    cases hv : validate_task_data title status (some description) with
    | error m =>
      rw [add_task_error hv]
      simp [exceptOk]
    | ok u =>
      cases u
      rw [add_task_ok hv]
      simp [exceptOk]
  have hcond : validate_task_data title status (some description) ≠ .ok () ↔
      (pyStrip title = [] ∨ 200 < title.length ∨ 1000 < description.length ∨
        validStatusB status = false) := by
    rw [validate_not_ok_iff]
    constructor
    · rintro (h | h | ⟨d, hd, hlen⟩ | h)
      · exact Or.inl h
      · exact Or.inr (Or.inl h)
      · injection hd with h2
        subst h2
        exact Or.inr (Or.inr (Or.inl hlen))
      · exact Or.inr (Or.inr (Or.inr h))
    · rintro (h | h | h | h)
      · exact Or.inl h
      · exact Or.inr (Or.inl h)
      · exact Or.inr (Or.inr (Or.inl ⟨description, rfl, h⟩))
      · exact Or.inr (Or.inr (Or.inr h))
  refine ⟨hbridge.trans hcond, ?_, ?_⟩
  · intro h
    exact (hbridge.trans hcond).mpr (Or.inr (Or.inl h))
  · intro h1 h2 h3 h4
    cases hb : exceptOk (add_task st now title description status).1 with
    | true => rfl
    | false =>
      exfalso
      rcases (hbridge.trans hcond).mp hb with h | h | h | h
      · exact h2 h
      · omega
      · omega
      · rw [h4] at h
        cases h

set_option maxRecDepth 20000 in
/-- Witness for the amended C2 at a 200-character title. -/
theorem claim_C2_witness :
    exceptOk (add_task initialState 0 (List.replicate 200 'a') [] "pending".data).1 = true :=
  (claim_C2_amended_validation (List.replicate 200 'a') "pending".data [] initialState 0).2.2
    (by decide) (by decide) (by decide) (by decide)

/-- C9 counterexample: `search_tasks` delegates to sqlite `LIKE`, which is
ASCII case-insensitive and treats `%` in the term as a wildcard, so it can
return tasks whose title does not contain the term as a literal substring:
searching "py" returns the task titled "PYTHON", and searching "A%B"
returns the task titled "AxB". -/
theorem claim_C9_counterexample :
    ((add_task initialState 0 "PYTHON".data [] "pending".data).2.tasks.all
        (fun t => !specSubstring "py".data t.title)) = true ∧
    search_tasks (add_task initialState 0 "PYTHON".data [] "pending".data).2 "py".data ≠ [] ∧
    ((add_task initialState 0 "AxB".data [] "pending".data).2.tasks.all
        (fun t => !specSubstring "A%B".data t.title)) = true ∧
    search_tasks (add_task initialState 0 "AxB".data [] "pending".data).2 "A%B".data ≠ [] := by
  refine ⟨by decide, ?_, by decide, ?_⟩
  · have hst : (add_task initialState 0 "PYTHON".data [] "pending".data).2 =
        ⟨[⟨1, "PYTHON".data, [], "pending".data, 0, none⟩], 2⟩ := by decide
    rw [hst]
    have hres : search_tasks ⟨[⟨1, "PYTHON".data, [], "pending".data, 0, none⟩], 2⟩ "py".data =
        [⟨1, "PYTHON".data, [], "pending".data, 0, none⟩] := by
      simp [search_tasks, sortByCreatedDesc, List.insertionSort, List.filter, likeMatch,
        charLikeEq, lowerAscii]
    rw [hres]
    simp
  · have hst : (add_task initialState 0 "AxB".data [] "pending".data).2 =
        ⟨[⟨1, "AxB".data, [], "pending".data, 0, none⟩], 2⟩ := by decide
    rw [hst]
    have hres : search_tasks ⟨[⟨1, "AxB".data, [], "pending".data, 0, none⟩], 2⟩ "A%B".data =
        [⟨1, "AxB".data, [], "pending".data, 0, none⟩] := by
      simp [search_tasks, sortByCreatedDesc, List.insertionSort, List.filter, likeMatch,
        charLikeEq, lowerAscii]
    rw [hres]
    simp

/-- C9 amended: for every wildcard-free search term, `search_tasks` returns
exactly the stored tasks whose title contains the term as a substring up to
ASCII case, ordered by created_at descending, and returns the empty list
when no stored title so contains the term. -/
theorem claim_C9_amended_search :
    ∀ (st : TMState) (term : List Char), noWildcards term →
      (∀ t, t ∈ search_tasks st term ↔ t ∈ st.tasks ∧ substringCI term t.title = true) ∧
      List.Sorted byNewest (search_tasks st term) ∧
      ((∀ t ∈ st.tasks, substringCI term t.title = false) → search_tasks st term = []) := by
  intro st term hterm
  refine ⟨?_, sorted_sortByCreatedDesc _, ?_⟩
  · intro t
    unfold search_tasks
    rw [mem_sortByCreatedDesc, List.mem_filter, likeMatch_full term hterm]
  · intro hnone
    unfold search_tasks
    have hfil : st.tasks.filter (fun t => likeMatch ('%' :: (term ++ ['%'])) t.title) = [] := by
      rw [List.filter_eq_nil_iff]
      intro a ha
      rw [likeMatch_full term hterm]
      simp [hnone a ha]
    rw [hfil]
    rfl

/-- Witness for the amended C9: the "py" search on the "PYTHON" store,
characterized through the case-insensitive substring predicate. -/
theorem claim_C9_witness :
    (⟨1, "PYTHON".data, [], "pending".data, 0, none⟩ : Task) ∈
        search_tasks (add_task initialState 0 "PYTHON".data [] "pending".data).2 "py".data ↔
      (⟨1, "PYTHON".data, [], "pending".data, 0, none⟩ : Task) ∈
          (add_task initialState 0 "PYTHON".data [] "pending".data).2.tasks ∧
        substringCI "py".data
          (Task.title ⟨1, "PYTHON".data, [], "pending".data, 0, none⟩) = true :=
  (claim_C9_amended_search (add_task initialState 0 "PYTHON".data [] "pending".data).2
      "py".data (by decide)).1 ⟨1, "PYTHON".data, [], "pending".data, 0, none⟩

/-- Witness for C6: a failing add on the empty store and a failing update
(empty title) on a one-task store leave the stores untouched. -/
theorem claim_C6_witness :
    (add_task initialState 0 "   ".data [] "pending".data).2 = initialState ∧
    (update_task (add_task initialState 0 "Review PR".data [] "pending".data).2 1 1
        (some []) none none).2 =
      (add_task initialState 0 "Review PR".data [] "pending".data).2 :=
  ⟨(claim_C6_no_partial_state initialState 0).1 "   ".data [] "pending".data (by decide),
   (claim_C6_no_partial_state (add_task initialState 0 "Review PR".data [] "pending".data).2 1).2
     1 (some []) none none (by decide)⟩

end TaskManager
